import Mathlib

/-!
Verification of the umbrella/worker process-supervision protocol of
`src/lib/cli/daemoncommand.cpp` (Icinga 2 daemon command).

The C++ source is shallowly embedded: the process-wide atomics become
fields of explicit state records, the signal handlers become pure state
transformers (returning `none` on the `VERIFY(!"Caught unexpected signal")`
abort), and the umbrella's control flow (`StartUnixWorker` and the
supervision loop of `DaemonCommand::Run`) becomes functions from an
explicit environment (signal deliveries, fork results, `waitpid` results)
to a final state together with a trace of externally visible actions
(`kill`, blocking reaps, systemd notifications).  POSIX signal numbers are
the Linux values used by the source.
-/

namespace Icinga

/-- Linux signal number of SIGHUP. -/
def SIGHUP : Int := 1

/-- Linux signal number of SIGINT. -/
def SIGINT : Int := 2

/-- Linux signal number of SIGUSR1. -/
def SIGUSR1 : Int := 10

/-- Linux signal number of SIGUSR2. -/
def SIGUSR2 : Int := 12

/-- Linux signal number of SIGTERM. -/
def SIGTERM : Int := 15

/-- Linux signal number of SIGCHLD. -/
def SIGCHLD : Int := 17

/-- C `EXIT_SUCCESS`. -/
def EXIT_SUCCESS : Int := 0

/-- C `EXIT_FAILURE`. -/
def EXIT_FAILURE : Int := 1

/-- The possible states of a seemless worker being started by
`StartUnixWorker()` (enum `UnixWorkerState` in the source). -/
inductive UnixWorkerState : Type
  | Pending
  | LoadedConfig
  | Failed
deriving DecidableEq, Repr

/-- The umbrella process' mutable globals of `daemoncommand.cpp`:
`l_CurrentlyStartingUnixWorkerPid` (initially `-1`),
`l_CurrentlyStartingUnixWorkerState` (initially `Pending`),
`l_TermSignal` (initially `-1`), `l_RequestedReload`,
`l_RequestedReopenLogs`.  The two `Defaulted` fields record the
`sigaction(num, SIG_DFL)` performed by the handler on SIGINT/SIGTERM. -/
structure UmbrellaGlobals : Type where
  currentlyStartingUnixWorkerPid : Int
  currentlyStartingUnixWorkerState : UnixWorkerState
  termSignal : Int
  requestedReload : Bool
  requestedReopenLogs : Bool
  sigintDefaulted : Bool
  sigtermDefaulted : Bool
deriving DecidableEq, Repr

/-- The globals at umbrella start-up. -/
def initialGlobals : UmbrellaGlobals :=
  { currentlyStartingUnixWorkerPid := -1
    currentlyStartingUnixWorkerState := UnixWorkerState.Pending
    termSignal := -1
    requestedReload := false
    requestedReopenLogs := false
    sigintDefaulted := false
    sigtermDefaulted := false }

/-- `UmbrellaSignalHandler(num, info, _)` of the source: `si_pid` is
`info->si_pid`.  Returns `none` exactly on the `default:` branch
(`VERIFY(!"Caught unexpected signal")`, which aborts the process). -/
def UmbrellaSignalHandler (num si_pid : Int) (g : UmbrellaGlobals) :
    Option UmbrellaGlobals :=
  if num = SIGUSR1 then
    some { g with requestedReopenLogs := true }
  else if num = SIGUSR2 then
    if g.currentlyStartingUnixWorkerState = UnixWorkerState.Pending
        ∧ si_pid = g.currentlyStartingUnixWorkerPid then
      some { g with currentlyStartingUnixWorkerState := UnixWorkerState.LoadedConfig }
    else
      some g
  else if num = SIGCHLD then
    if g.currentlyStartingUnixWorkerState = UnixWorkerState.Pending
        ∧ si_pid = g.currentlyStartingUnixWorkerPid then
      some { g with currentlyStartingUnixWorkerState := UnixWorkerState.Failed }
    else
      some g
  else if num = SIGINT then
    some { g with sigintDefaulted := true, termSignal := num }
  else if num = SIGTERM then
    some { g with sigtermDefaulted := true, termSignal := num }
  else if num = SIGHUP then
    some { g with requestedReload := true }
  else
    none

/-- The worker process' mutable state touched by `WorkerSignalHandler`:
`l_AllowedToWork`, and the effect of `Application::RequestShutdown()`
(an external collaborator, recorded here as a boolean). -/
structure WorkerGlobals : Type where
  allowedToWork : Bool
  shutdownRequested : Bool
deriving DecidableEq, Repr

/-- `WorkerSignalHandler(num, info, _)` of the source; `umbrellaPid` is the
global `l_UmbrellaPid`.  Returns `none` exactly on the `default:` abort. -/
def WorkerSignalHandler (umbrellaPid num si_pid : Int) (w : WorkerGlobals) :
    Option WorkerGlobals :=
  if num = SIGUSR2 then
    if si_pid = umbrellaPid then
      some { w with allowedToWork := true }
    else
      some w
  else if num = SIGINT ∨ num = SIGTERM then
    if si_pid = umbrellaPid then
      some { w with shutdownRequested := true }
    else
      some w
  else
    none

/-- `NotifyWatchdog()` of the source, with `Utility::GetTime()` passed in:
given the current time and `l_LastNotifiedWatchdog`, returns whether
`sd_notify(0, "WATCHDOG=1")` was emitted and the new value of
`l_LastNotifiedWatchdog`. -/
def NotifyWatchdog (now last : ℚ) : Bool × ℚ :=
  if 5/2 ≤ now - last then (true, now) else (false, last)

/-- Repeated calls of `NotifyWatchdog` at the given sequence of clock
readings, starting from a given `l_LastNotifiedWatchdog`; returns the
times at which a watchdog notification was actually emitted. -/
def runWatchdog : List ℚ → ℚ → List ℚ
  | [], _ => []
  | t :: ts, last =>
    match NotifyWatchdog t last with
    | (true, last2) => t :: runWatchdog ts last2
    | (false, last2) => runWatchdog ts last2

/-- Externally visible actions of the umbrella process: `kill(pid, sig)`,
a blocking reap `waitpid(pid, nullptr, 0)` (retried across `EINTR`), a call
of `NotifyWatchdog`, and the systemd notifications `RELOADING=1`,
`READY=1`, `STOPPING=1`. -/
inductive Act : Type
  | kill (pid sig : Int)
  | reap (pid : Int)
  | watchdogPoll
  | notifyReloading
  | notifyReady
  | notifyStopping
deriving DecidableEq, Repr

/-- Deliver a batch of signals `(num, si_pid)` to the umbrella's handler,
in order; `none` if any delivery hits the handler's abort branch. -/
def applyUmbrellaSignals : List (Int × Int) → UmbrellaGlobals → Option UmbrellaGlobals
  | [], g => some g
  | d :: ds, g =>
    match UmbrellaSignalHandler d.1 d.2 g with
    | some g2 => applyUmbrellaSignals ds g2
    | none => none

/-- The umbrella-side wait loop of `StartUnixWorker` (the `for (;;)` over
`l_CurrentlyStartingUnixWorkerState`): `sched` gives, for each loop
iteration, the batch of signals delivered (after `sigprocmask(SIG_UNBLOCK)`)
before the state is loaded; `childPid` is the `fork()` result.  Returns the
worker pid (or `-1` on config-load failure, after the blocking reap of the
child), the globals, and the emitted actions; `none` when the schedule runs
out with the state still `Pending` (the loop has no timeout) or on a
handler abort. -/
def awaitWorker : List (List (Int × Int)) → Int → UmbrellaGlobals →
    Option (Int × UmbrellaGlobals × List Act)
  | [], _, _ => none
  | ds :: rest, childPid, g =>
    match applyUmbrellaSignals ds g with
    | none => none
    | some g2 =>
      match g2.currentlyStartingUnixWorkerState with
      | UnixWorkerState.LoadedConfig =>
        some (childPid, g2, [Act.watchdogPoll])
      | UnixWorkerState.Failed =>
        some (-1, g2, [Act.watchdogPoll, Act.reap childPid])
      | UnixWorkerState.Pending =>
        match awaitWorker rest childPid g2 with
        | none => none
        | some (r, g3, acts) => some (r, g3, Act.watchdogPoll :: acts)

/-- `StartUnixWorker(configs)`, parent branch (the `default:` of the
`switch (pid)`): stores `childPid` into `l_CurrentlyStartingUnixWorkerPid`
while the relevant signals are still blocked, runs the wait loop, and
resets `l_CurrentlyStartingUnixWorkerPid` to `-1` and
`l_CurrentlyStartingUnixWorkerState` to `Pending` before returning. -/
def StartUnixWorker (sched : List (List (Int × Int))) (childPid : Int)
    (g : UmbrellaGlobals) : Option (Int × UmbrellaGlobals × List Act) :=
  match awaitWorker sched childPid
      { g with currentlyStartingUnixWorkerPid := childPid } with
  | none => none
  | some (r, g2, acts) =>
    some (r,
      { g2 with
        currentlyStartingUnixWorkerPid := -1
        currentlyStartingUnixWorkerState := UnixWorkerState.Pending },
      acts)

/-- Result of `waitpid(currentWorker, &status, WNOHANG)` when it reaps:
either `WIFEXITED` with `WEXITSTATUS`, or `WIFSIGNALED` with `WTERMSIG`. -/
inductive WaitStatus : Type
  | exited (code : Int)
  | signaled (sig : Int)
deriving DecidableEq, Repr

/-- The exit-code translation of `DaemonCommand::Run`:
`WIFSIGNALED(status) ? 128 + WTERMSIG(status) : WEXITSTATUS(status)`. -/
def exitCodeOfStatus : WaitStatus → Int
  | WaitStatus.exited code => code
  | WaitStatus.signaled sig => 128 + sig

/-- The per-iteration state of the umbrella supervision loop of
`DaemonCommand::Run`: the globals, the local `currentWorker`, and the
locals `requestedTermination` / `notifiedTermination`. -/
structure LoopSt : Type where
  g : UmbrellaGlobals
  currentWorker : Int
  requestedTermination : Bool
  notifiedTermination : Bool
deriving DecidableEq, Repr

/-- Environment of one supervision-loop iteration: the signals delivered
before the iteration's reads, the `fork()` result and per-iteration signal
schedule a `StartUnixWorker` call would see, and the `WNOHANG` `waitpid`
observation for the current worker. -/
structure IterEnv : Type where
  preSignals : List (Int × Int)
  spawnChildPid : Int
  spawnSched : List (List (Int × Int))
  exitStatus : Option WaitStatus
deriving DecidableEq, Repr

/-- The `if (!requestedTermination) { int termSig = l_TermSignal.load(); ... }`
block: forwards a pending termination signal to the current worker once,
then latches `requestedTermination` and (first time only) notifies systemd
`STOPPING=1`.  Note the source loads `l_TermSignal` without clearing it. -/
def forwardTermination (st : LoopSt) : List Act × LoopSt :=
  if st.requestedTermination then
    ([], st)
  else if st.g.termSignal = -1 then
    ([], st)
  else if st.notifiedTermination then
    ([Act.kill st.currentWorker st.g.termSignal],
     { st with requestedTermination := true })
  else
    ([Act.kill st.currentWorker st.g.termSignal, Act.notifyStopping],
     { st with requestedTermination := true, notifiedTermination := true })

/-- The `if (l_RequestedReload.exchange(false)) { ... }` block: on a
pending reload request, notify `RELOADING=1`, spawn a new worker; on spawn
failure just log; on success `kill(currentWorker, SIGTERM)`, reap the old
worker (blocking, retried across `EINTR`), `kill(nextWorker, SIGUSR2)`,
and adopt `nextWorker`; either way notify `READY=1`. -/
def handleReload (env : IterEnv) (st : LoopSt) : Option (List Act × LoopSt) :=
  if st.g.requestedReload then
    match StartUnixWorker env.spawnSched env.spawnChildPid
        { st.g with requestedReload := false } with
    | none => none
    | some (nextWorker, g2, spawnActs) =>
      if nextWorker = -1 then
        some (Act.notifyReloading :: spawnActs ++ [Act.notifyReady],
          { st with g := g2 })
      else
        some (Act.notifyReloading :: spawnActs ++
            [Act.kill st.currentWorker SIGTERM, Act.reap st.currentWorker,
             Act.kill nextWorker SIGUSR2, Act.notifyReady],
          { st with g := g2, currentWorker := nextWorker })
  else
    some ([], st)

/-- The `if (l_RequestedReopenLogs.exchange(false)) { ... }` block:
forward SIGUSR1 to the current worker. -/
def handleReopenLogs (st : LoopSt) : List Act × LoopSt :=
  if st.g.requestedReopenLogs then
    ([Act.kill st.currentWorker SIGUSR1],
     { st with g := { st.g with requestedReopenLogs := false } })
  else
    ([], st)

/-- The final `waitpid(currentWorker, &status, WNOHANG)` block: when the
worker has exited, notify `STOPPING=1` unless already done and return the
translated exit code. -/
def checkWorkerExit (env : IterEnv) (st : LoopSt) :
    List Act × Option Int × LoopSt :=
  match env.exitStatus with
  | none => ([], none, st)
  | some ws =>
    if st.notifiedTermination then
      ([], some (exitCodeOfStatus ws), st)
    else
      ([Act.notifyStopping], some (exitCodeOfStatus ws),
       { st with notifiedTermination := true })

/-- One iteration of the `for (;;)` supervision loop of
`DaemonCommand::Run`: watchdog poll, termination forwarding, reload
handling, log-reopen forwarding, worker-exit check, in source order.
`Sum.inr code` means the iteration executed `return code`. -/
def iterStep (env : IterEnv) (st : LoopSt) :
    Option (List Act × (LoopSt ⊕ Int)) :=
  match applyUmbrellaSignals env.preSignals st.g with
  | none => none
  | some g1 =>
    let p1 := forwardTermination { st with g := g1 }
    match handleReload env p1.2 with
    | none => none
    | some (a2, st3) =>
      let p3 := handleReopenLogs st3
      match checkWorkerExit env p3.2 with
      | (a4, some code, _) =>
        some (Act.watchdogPoll :: (p1.1 ++ a2 ++ p3.1 ++ a4), Sum.inr code)
      | (a4, none, st5) =>
        some (Act.watchdogPoll :: (p1.1 ++ a2 ++ p3.1 ++ a4), Sum.inl st5)

/-- The supervision loop run over a finite list of iteration environments:
accumulates the action trace; the result is `some code` when an iteration
returned, `none` when the environments ran out with the loop still
running. -/
def runUmbrella : List IterEnv → LoopSt → Option (List Act × Option Int)
  | [], _ => some ([], none)
  | env :: envs, st =>
    match iterStep env st with
    | none => none
    | some (acts, Sum.inr code) => some (acts, some code)
    | some (acts, Sum.inl st2) =>
      match runUmbrella envs st2 with
      | none => none
      | some (acts2, r) => some (acts ++ acts2, r)

/-- The tail of `DaemonCommand::Run` on the non-Windows path (from
`StartUnixWorker(configs)` on): spawn the first worker; on failure
`return EXIT_FAILURE`; on success immediately `kill(currentWorker, SIGUSR2)`,
notify `READY=1`, and enter the supervision loop. -/
def daemonRun (firstSched : List (List (Int × Int))) (firstChildPid : Int)
    (envs : List IterEnv) : Option (List Act × Option Int) :=
  match StartUnixWorker firstSched firstChildPid initialGlobals with
  | none => none
  | some (w, g, spawnActs) =>
    if w = -1 then
      some (spawnActs, some EXIT_FAILURE)
    else
      match runUmbrella envs
          { g := g, currentWorker := w,
            requestedTermination := false, notifiedTermination := false } with
      | none => none
      | some (acts, r) =>
        some (spawnActs ++ Act.kill w SIGUSR2 :: Act.notifyReady :: acts, r)

/-- Deliver a batch of signals to the worker's handler, in order. -/
def applyWorkerSignals (umbrellaPid : Int) :
    List (Int × Int) → WorkerGlobals → Option WorkerGlobals
  | [], w => some w
  | d :: ds, w =>
    match WorkerSignalHandler umbrellaPid d.1 d.2 w with
    | some w2 => applyWorkerSignals umbrellaPid ds w2
    | none => none

lemma workerHandler_foreign (umbrellaPid : Int) (w : WorkerGlobals)
    (num si_pid : Int) (hnum : num = SIGUSR2 ∨ num = SIGINT ∨ num = SIGTERM)
    (hp : si_pid ≠ umbrellaPid) :
    WorkerSignalHandler umbrellaPid num si_pid w = some w := by
  rcases hnum with h | h | h <;> subst h <;>
    simp [WorkerSignalHandler, SIGUSR2, SIGINT, SIGTERM, hp]

lemma applyWorkerSignals_filter (umbrellaPid : Int) (ds : List (Int × Int)) :
    ∀ w, (∀ d ∈ ds, d.1 = SIGUSR2 ∨ d.1 = SIGINT ∨ d.1 = SIGTERM) →
      applyWorkerSignals umbrellaPid ds w =
        applyWorkerSignals umbrellaPid
          (ds.filter fun d => d.2 == umbrellaPid) w := by
  induction ds with
  | nil => intro w _; rfl
  | cons d ds ih =>
    intro w hall
    by_cases hp : d.2 = umbrellaPid
    · rw [List.filter_cons_of_pos (by simpa using hp)]
      show (match WorkerSignalHandler umbrellaPid d.1 d.2 w with
        | some w2 => applyWorkerSignals umbrellaPid ds w2
        | none => none) = _
      cases hh : WorkerSignalHandler umbrellaPid d.1 d.2 w with
      | none => simp [applyWorkerSignals, hh]
      | some w2 =>
        simp only [applyWorkerSignals, hh]
        exact ih w2 fun x hx => hall x (List.mem_cons_of_mem _ hx)
    · rw [List.filter_cons_of_neg (by simpa using hp)]
      have hs : WorkerSignalHandler umbrellaPid d.1 d.2 w = some w :=
        workerHandler_foreign umbrellaPid w d.1 d.2 (hall d (List.mem_cons_self d ds)) hp
      simp only [applyWorkerSignals, hs]
      exact ih w fun x hx => hall x (List.mem_cons_of_mem _ hx)

/-- C8: the worker's handler reacts only to its umbrella: `AllowedToWork`
is set only when the continue signal's sender is the umbrella pid,
interrupt/terminate request workload shutdown only when the sender is the
umbrella, and any of these signals from another sender leaves the worker
state unchanged — so any delivery sequence is indistinguishable from its
subsequence of umbrella-sent signals. -/
theorem worker_handler_umbrella_only (umbrellaPid : Int) :
    (∀ w num si_pid, (num = SIGUSR2 ∨ num = SIGINT ∨ num = SIGTERM) →
      si_pid ≠ umbrellaPid →
      WorkerSignalHandler umbrellaPid num si_pid w = some w)
    ∧ (∀ w, WorkerSignalHandler umbrellaPid SIGUSR2 umbrellaPid w =
        some { w with allowedToWork := true })
    ∧ (∀ w num, (num = SIGINT ∨ num = SIGTERM) →
        WorkerSignalHandler umbrellaPid num umbrellaPid w =
          some { w with shutdownRequested := true })
    ∧ (∀ ds w, (∀ d ∈ ds, d.1 = SIGUSR2 ∨ d.1 = SIGINT ∨ d.1 = SIGTERM) →
        applyWorkerSignals umbrellaPid ds w =
          applyWorkerSignals umbrellaPid
            (ds.filter fun d => d.2 == umbrellaPid) w) := by
  refine ⟨workerHandler_foreign umbrellaPid, ?_, ?_, ?_⟩
  · intro w; simp [WorkerSignalHandler]
  · intro w num hnum
    rcases hnum with h | h <;> subst h <;>
      simp [WorkerSignalHandler, SIGUSR2, SIGINT, SIGTERM]
  · intro ds w hall; exact applyWorkerSignals_filter umbrellaPid ds w hall

/-- Witness for `worker_handler_umbrella_only` at umbrella pid 5, a
SIGUSR2 from the foreign pid 6. -/
theorem worker_handler_umbrella_only_witness :
    WorkerSignalHandler 5 SIGUSR2 6
        { allowedToWork := false, shutdownRequested := false } =
      some { allowedToWork := false, shutdownRequested := false } :=
  (worker_handler_umbrella_only 5).1
    { allowedToWork := false, shutdownRequested := false } SIGUSR2 6
    (Or.inl rfl) (by decide)

/-- C5: a load-succeeded (SIGUSR2) or child-exited (SIGCHLD) signal whose
sender is not `l_CurrentlyStartingUnixWorkerPid`, or which arrives while
`l_CurrentlyStartingUnixWorkerState` is not `Pending`, leaves the
umbrella's globals (in particular the worker start state) unchanged. -/
theorem foreign_or_stale_signal_ignored (g : UmbrellaGlobals) (num si_pid : Int)
    (hnum : num = SIGUSR2 ∨ num = SIGCHLD)
    (h : si_pid ≠ g.currentlyStartingUnixWorkerPid ∨
      g.currentlyStartingUnixWorkerState ≠ UnixWorkerState.Pending) :
    UmbrellaSignalHandler num si_pid g = some g := by
  rcases hnum with h1 | h1 <;> subst h1 <;>
    · rw [UmbrellaSignalHandler]
      norm_num [SIGUSR1, SIGUSR2, SIGCHLD, SIGINT, SIGTERM, SIGHUP]
      intro h1 h2
      rcases h with h | h
      · exact absurd h2 h
      · exact absurd h1 h

/-- Witness for `foreign_or_stale_signal_ignored`: SIGUSR2 from pid 5
while no worker is being started. -/
theorem foreign_or_stale_signal_ignored_witness :
    UmbrellaSignalHandler SIGUSR2 5 initialGlobals = some initialGlobals :=
  foreign_or_stale_signal_ignored initialGlobals SIGUSR2 5 (Or.inl rfl)
    (Or.inl (by decide))

/-- C9: along any sequence of `NotifyWatchdog` calls, consecutive emitted
watchdog notifications (starting from the initial
`l_LastNotifiedWatchdog`) are at least the 2.5 s throttle interval apart:
a notification is emitted only when at least 2.5 s have elapsed since the
last emitted one, however frequently the routine is polled. -/
theorem watchdog_throttled (ts : List ℚ) (last : ℚ) :
    List.Chain (fun a b => a + 5/2 ≤ b) last (runWatchdog ts last) := by
  induction ts generalizing last with
  | nil => exact List.Chain.nil
  | cons t ts ih =>
    by_cases h : (5 : ℚ)/2 ≤ t - last
    · rw [show runWatchdog (t :: ts) last = t :: runWatchdog ts t by
        simp [runWatchdog, NotifyWatchdog, h]]
      exact List.Chain.cons (by linarith) (ih t)
    · rw [show runWatchdog (t :: ts) last = runWatchdog ts last by
        simp [runWatchdog, NotifyWatchdog, h]]
      exact ih last

/-- Witness for `watchdog_throttled`: a concrete fast poll sequence with
the initial `l_LastNotifiedWatchdog` of 0. -/
theorem watchdog_throttled_witness :
    List.Chain (fun a b => a + 5/2 ≤ b) 0 (runWatchdog [0, 1, 2, 3, 6] 0) :=
  watchdog_throttled [0, 1, 2, 3, 6] 0

lemma handler_state_step (num si_pid : Int) (g g' : UmbrellaGlobals)
    (h : UmbrellaSignalHandler num si_pid g = some g') :
    g'.currentlyStartingUnixWorkerState = g.currentlyStartingUnixWorkerState ∨
      (g.currentlyStartingUnixWorkerState = UnixWorkerState.Pending ∧
        (g'.currentlyStartingUnixWorkerState = UnixWorkerState.LoadedConfig ∨
          g'.currentlyStartingUnixWorkerState = UnixWorkerState.Failed)) := by
  unfold UmbrellaSignalHandler at h
  split_ifs at h with h1 h2 h3 h4 h5 h6 h7 h8
  all_goals try (injection h with h; try subst h)
  all_goals try exact Or.inl rfl
  all_goals exact Or.inr ⟨by tauto, by simp⟩

lemma applySignals_state (ds : List (Int × Int)) :
    ∀ g g', applyUmbrellaSignals ds g = some g' →
      g'.currentlyStartingUnixWorkerState = g.currentlyStartingUnixWorkerState ∨
        (g.currentlyStartingUnixWorkerState = UnixWorkerState.Pending ∧
          (g'.currentlyStartingUnixWorkerState = UnixWorkerState.LoadedConfig ∨
            g'.currentlyStartingUnixWorkerState = UnixWorkerState.Failed)) := by
  induction ds with
  | nil =>
    intro g g' h
    injection h with h
    subst h
    exact Or.inl rfl
  | cons d ds ih =>
    intro g g' h
    rw [show applyUmbrellaSignals (d :: ds) g =
        (match UmbrellaSignalHandler d.1 d.2 g with
          | some g2 => applyUmbrellaSignals ds g2
          | none => none) from rfl] at h
    cases hh : UmbrellaSignalHandler d.1 d.2 g with
    | none => rw [hh] at h; cases h
    | some g2 =>
      rw [hh] at h
      rcases handler_state_step d.1 d.2 g g2 hh with h1 | h1
      · rcases ih g2 g' h with h2 | h2
        · exact Or.inl (h2.trans h1)
        · exact Or.inr ⟨h1 ▸ h2.1, h2.2⟩
      · rcases ih g2 g' h with h2 | h2
        · exact Or.inr ⟨h1.1, h2 ▸ h1.2⟩
        · rcases h1.2 with h3 | h3 <;> rw [h3] at h2 <;> cases h2.1

lemma StartUnixWorker_resets (sched : List (List (Int × Int))) (cp : Int) :
    ∀ g r g' acts, StartUnixWorker sched cp g = some (r, g', acts) →
      g'.currentlyStartingUnixWorkerPid = -1 ∧
        g'.currentlyStartingUnixWorkerState = UnixWorkerState.Pending := by
  intro g r g' acts h
  unfold StartUnixWorker at h
  cases hh : awaitWorker sched cp
      { g with currentlyStartingUnixWorkerPid := cp } with
  | none => rw [hh] at h; cases h
  | some x =>
    obtain ⟨r2, g2, acts2⟩ := x
    rw [hh] at h
    simp only [Option.some.injEq, Prod.mk.injEq] at h
    obtain ⟨-, h2, -⟩ := h
    rw [← h2]
    exact ⟨rfl, rfl⟩

/-- C4: under any sequence of signal deliveries the worker start state
only ever moves from `Pending` to `LoadedConfig` or from `Pending` to
`Failed` (a non-`Pending` state is never changed by a delivery, so it
never skips between `LoadedConfig` and `Failed`), and `StartUnixWorker`
resets both `l_CurrentlyStartingUnixWorkerPid` (to `-1`) and
`l_CurrentlyStartingUnixWorkerState` (to `Pending`) before returning,
hence before any subsequent spawn attempt. -/
theorem workerStartState_transitions :
    (∀ num si_pid g g', UmbrellaSignalHandler num si_pid g = some g' →
      g'.currentlyStartingUnixWorkerState = g.currentlyStartingUnixWorkerState ∨
        (g.currentlyStartingUnixWorkerState = UnixWorkerState.Pending ∧
          (g'.currentlyStartingUnixWorkerState = UnixWorkerState.LoadedConfig ∨
            g'.currentlyStartingUnixWorkerState = UnixWorkerState.Failed)))
    ∧ (∀ ds g g', applyUmbrellaSignals ds g = some g' →
        g'.currentlyStartingUnixWorkerState = g.currentlyStartingUnixWorkerState ∨
          (g.currentlyStartingUnixWorkerState = UnixWorkerState.Pending ∧
            (g'.currentlyStartingUnixWorkerState = UnixWorkerState.LoadedConfig ∨
              g'.currentlyStartingUnixWorkerState = UnixWorkerState.Failed)))
    ∧ (∀ sched cp g r g' acts, StartUnixWorker sched cp g = some (r, g', acts) →
        g'.currentlyStartingUnixWorkerPid = -1 ∧
          g'.currentlyStartingUnixWorkerState = UnixWorkerState.Pending) :=
  ⟨handler_state_step, applySignals_state,
    fun sched cp g r g' acts h => StartUnixWorker_resets sched cp g r g' acts h⟩

/-- Witness for `workerStartState_transitions`: a SIGUSR2 from the worker
being started (pid 5) moves the start state, and it can only have moved
`Pending → LoadedConfig/Failed` (or stayed put). -/
theorem workerStartState_transitions_witness :
    ({ initialGlobals with
        currentlyStartingUnixWorkerPid := 5
        currentlyStartingUnixWorkerState :=
          UnixWorkerState.LoadedConfig } : UmbrellaGlobals).currentlyStartingUnixWorkerState =
      ({ initialGlobals with
          currentlyStartingUnixWorkerPid := 5 } : UmbrellaGlobals).currentlyStartingUnixWorkerState ∨
    (({ initialGlobals with
        currentlyStartingUnixWorkerPid := 5 } : UmbrellaGlobals).currentlyStartingUnixWorkerState =
        UnixWorkerState.Pending ∧
      (({ initialGlobals with
          currentlyStartingUnixWorkerPid := 5
          currentlyStartingUnixWorkerState :=
            UnixWorkerState.LoadedConfig } : UmbrellaGlobals).currentlyStartingUnixWorkerState =
          UnixWorkerState.LoadedConfig ∨
        ({ initialGlobals with
            currentlyStartingUnixWorkerPid := 5
            currentlyStartingUnixWorkerState :=
              UnixWorkerState.LoadedConfig } : UmbrellaGlobals).currentlyStartingUnixWorkerState =
          UnixWorkerState.Failed)) :=
  workerStartState_transitions.1 SIGUSR2 5
    { initialGlobals with currentlyStartingUnixWorkerPid := 5 }
    { initialGlobals with
        currentlyStartingUnixWorkerPid := 5
        currentlyStartingUnixWorkerState := UnixWorkerState.LoadedConfig }
    (by decide)

lemma checkWorkerExit_code (env : IterEnv) (st : LoopSt)
    (a : List Act) (code : Int) (st' : LoopSt)
    (h : checkWorkerExit env st = (a, some code, st')) :
    ∃ ws, env.exitStatus = some ws ∧ code = exitCodeOfStatus ws := by
  unfold checkWorkerExit at h
  cases he : env.exitStatus with
  | none => rw [he] at h; cases h
  | some ws =>
    rw [he] at h
    refine ⟨ws, rfl, ?_⟩
    split_ifs at h <;>
      · simp only [Prod.mk.injEq, Option.some.injEq] at h
        exact h.2.1.symm

/-- C3: whenever an iteration of the umbrella's supervision loop returns
(which happens exactly when the non-blocking `waitpid` observed the
active worker's exit), the umbrella's exit code is the worker's translated
fate: the worker's exit code on a normal exit, `128 + signal` on a signal
death. -/
theorem exit_code_translation (env : IterEnv) (st : LoopSt)
    (acts : List Act) (code : Int)
    (h : iterStep env st = some (acts, Sum.inr code)) :
    ∃ ws, env.exitStatus = some ws ∧ code = exitCodeOfStatus ws := by
  unfold iterStep at h
  cases h1 : applyUmbrellaSignals env.preSignals st.g with
  | none => rw [h1] at h; cases h
  | some g1 =>
    rw [h1] at h
    simp only at h
    cases h2 : handleReload env (forwardTermination { st with g := g1 }).2 with
    | none => rw [h2] at h; cases h
    | some x =>
      obtain ⟨a2, st3⟩ := x
      rw [h2] at h
      simp only at h
      rcases h4 : checkWorkerExit env (handleReopenLogs st3).2 with ⟨a4, oc, st5⟩
      rw [h4] at h
      cases oc with
      | none => simp only [Option.some.injEq, Prod.mk.injEq] at h; cases h.2
      | some c =>
        simp only [Option.some.injEq, Prod.mk.injEq, Sum.inr.injEq] at h
        rw [← h.2]
        exact checkWorkerExit_code env (handleReopenLogs st3).2 a4 c st5 h4

/-- Witness for `exit_code_translation`: a worker killed by signal 9
makes the umbrella exit 137, and a worker exiting with code 3 makes it
exit 3. -/
theorem exit_code_translation_witness :
    (∃ ws, (IterEnv.mk [] 0 [] (some (WaitStatus.signaled 9))).exitStatus = some ws ∧
      (137 : Int) = exitCodeOfStatus ws)
    ∧ (∃ ws, (IterEnv.mk [] 0 [] (some (WaitStatus.exited 3))).exitStatus = some ws ∧
      (3 : Int) = exitCodeOfStatus ws) :=
  ⟨exit_code_translation (IterEnv.mk [] 0 [] (some (WaitStatus.signaled 9)))
      (LoopSt.mk initialGlobals 7 false false)
      [Act.watchdogPoll, Act.notifyStopping] 137 (by decide),
    exit_code_translation (IterEnv.mk [] 0 [] (some (WaitStatus.exited 3)))
      (LoopSt.mk initialGlobals 7 false false)
      [Act.watchdogPoll, Act.notifyStopping] 3 (by decide)⟩

lemma awaitWorker_acts_mem (sched : List (List (Int × Int))) (cp : Int) :
    ∀ g r g' acts, awaitWorker sched cp g = some (r, g', acts) →
      ∀ a ∈ acts, a = Act.watchdogPoll ∨ a = Act.reap cp := by
  induction sched with
  | nil => intro g r g' acts h; cases h
  | cons ds rest ih =>
    intro g r g' acts h
    unfold awaitWorker at h
    cases h1 : applyUmbrellaSignals ds g with
    | none => rw [h1] at h; cases h
    | some g2 =>
      rw [h1] at h
      simp only at h
      cases hs : g2.currentlyStartingUnixWorkerState with
      | LoadedConfig =>
        rw [hs] at h
        simp only [Option.some.injEq, Prod.mk.injEq] at h
        rw [← h.2.2]
        intro a ha
        simp only [List.mem_singleton] at ha
        exact Or.inl ha
      | Failed =>
        rw [hs] at h
        simp only [Option.some.injEq, Prod.mk.injEq] at h
        rw [← h.2.2]
        intro a ha
        simp only [List.mem_cons, List.mem_singleton] at ha
        rcases ha with ha | ha | ha
        · exact Or.inl ha
        · exact Or.inr ha
        · cases ha
      | Pending =>
        rw [hs] at h
        cases h2 : awaitWorker rest cp g2 with
        | none => rw [h2] at h; cases h
        | some x =>
          obtain ⟨r2, g3, acts2⟩ := x
          rw [h2] at h
          simp only [Option.some.injEq, Prod.mk.injEq] at h
          rw [← h.2.2]
          intro a ha
          rcases List.mem_cons.mp ha with ha | ha
          · exact Or.inl ha
          · exact ih g2 r2 g3 acts2 h2 a ha

lemma awaitWorker_acts_success (sched : List (List (Int × Int))) (cp : Int) :
    ∀ g r g' acts, awaitWorker sched cp g = some (r, g', acts) → r ≠ -1 →
      ∀ a ∈ acts, a = Act.watchdogPoll := by
  induction sched with
  | nil => intro g r g' acts h; cases h
  | cons ds rest ih =>
    intro g r g' acts h hr
    unfold awaitWorker at h
    cases h1 : applyUmbrellaSignals ds g with
    | none => rw [h1] at h; cases h
    | some g2 =>
      rw [h1] at h
      simp only at h
      cases hs : g2.currentlyStartingUnixWorkerState with
      | LoadedConfig =>
        rw [hs] at h
        simp only [Option.some.injEq, Prod.mk.injEq] at h
        rw [← h.2.2]
        intro a ha
        simpa using ha
      | Failed =>
        rw [hs] at h
        simp only [Option.some.injEq, Prod.mk.injEq] at h
        exact absurd h.1.symm hr
      | Pending =>
        rw [hs] at h
        cases h2 : awaitWorker rest cp g2 with
        | none => rw [h2] at h; cases h
        | some x =>
          obtain ⟨r2, g3, acts2⟩ := x
          rw [h2] at h
          simp only [Option.some.injEq, Prod.mk.injEq] at h
          rw [← h.2.2]
          intro a ha
          rcases List.mem_cons.mp ha with ha | ha
          · exact ha
          · exact ih g2 r2 g3 acts2 h2 (h.1 ▸ hr) a ha

lemma StartUnixWorker_inv (sched : List (List (Int × Int))) (cp : Int)
    (g : UmbrellaGlobals) (r : Int) (g' : UmbrellaGlobals) (acts : List Act)
    (h : StartUnixWorker sched cp g = some (r, g', acts)) :
    ∃ g2, awaitWorker sched cp
        { g with currentlyStartingUnixWorkerPid := cp } = some (r, g2, acts) ∧
      g' = { g2 with
        currentlyStartingUnixWorkerPid := -1
        currentlyStartingUnixWorkerState := UnixWorkerState.Pending } := by
  unfold StartUnixWorker at h
  cases hh : awaitWorker sched cp { g with currentlyStartingUnixWorkerPid := cp } with
  | none => rw [hh] at h; cases h
  | some x =>
    obtain ⟨r2, g2, acts2⟩ := x
    rw [hh] at h
    simp only [Option.some.injEq, Prod.mk.injEq] at h
    obtain ⟨hr, hg, ha⟩ := h
    subst hr
    subst ha
    exact ⟨g2, rfl, hg.symm⟩

lemma StartUnixWorker_acts_mem (sched : List (List (Int × Int))) (cp : Int)
    (g : UmbrellaGlobals) (r : Int) (g' : UmbrellaGlobals) (acts : List Act)
    (h : StartUnixWorker sched cp g = some (r, g', acts)) :
    ∀ a ∈ acts, a = Act.watchdogPoll ∨ a = Act.reap cp := by
  obtain ⟨g2, hw, -⟩ := StartUnixWorker_inv sched cp g r g' acts h
  exact awaitWorker_acts_mem sched cp _ r g2 acts hw

lemma StartUnixWorker_acts_success (sched : List (List (Int × Int))) (cp : Int)
    (g : UmbrellaGlobals) (r : Int) (g' : UmbrellaGlobals) (acts : List Act)
    (h : StartUnixWorker sched cp g = some (r, g', acts)) (hr : r ≠ -1) :
    ∀ a ∈ acts, a = Act.watchdogPoll := by
  obtain ⟨g2, hw, -⟩ := StartUnixWorker_inv sched cp g r g' acts h
  exact awaitWorker_acts_success sched cp _ r g2 acts hw hr

/-- C2: a reload attempt whose worker spawn fails (`StartUnixWorker`
returned `-1`) leaves the active worker untouched: the reload handling
emits no `kill` at all (in particular none to the active worker) and
`currentWorker` keeps its previous value. -/
theorem failed_reload_leaves_worker (env : IterEnv) (st : LoopSt)
    (g2 : UmbrellaGlobals) (sacts : List Act) (acts : List Act) (st' : LoopSt)
    (hspawn : StartUnixWorker env.spawnSched env.spawnChildPid
      { st.g with requestedReload := false } = some (-1, g2, sacts))
    (h : handleReload env st = some (acts, st')) :
    st'.currentWorker = st.currentWorker ∧
      ∀ a ∈ acts, ∀ p sig, a ≠ Act.kill p sig := by
  unfold handleReload at h
  by_cases hreq : st.g.requestedReload
  · rw [if_pos hreq, hspawn] at h
    simp only [reduceIte, Option.some.injEq, Prod.mk.injEq] at h
    obtain ⟨ha, hst⟩ := h
    constructor
    · rw [← hst]
    · rw [← ha]
      intro a hmem p sig
      rcases List.mem_cons.mp hmem with hm | hm
      · subst hm; intro hc; cases hc
      · rcases List.mem_append.mp hm with hm | hm
        · rcases StartUnixWorker_acts_mem env.spawnSched env.spawnChildPid
              { st.g with requestedReload := false } (-1) g2 sacts hspawn a hm with
            hv | hv <;> (subst hv; intro hc; cases hc)
        · simp only [List.mem_singleton] at hm
          subst hm; intro hc; cases hc
  · rw [if_neg hreq] at h
    simp only [Option.some.injEq, Prod.mk.injEq] at h
    obtain ⟨ha, hst⟩ := h
    rw [← hst, ← ha]
    exact ⟨rfl, by intro a hmem; cases hmem⟩

/-- Witness for `failed_reload_leaves_worker`: the worker being spawned
for the reload (pid 5) dies (SIGCHLD), the reload is abandoned, and the
active worker (pid 7) stays and is not signalled. -/
theorem failed_reload_leaves_worker_witness :
    (LoopSt.mk initialGlobals 7 false false).currentWorker =
      (LoopSt.mk { initialGlobals with requestedReload := true } 7 false false).currentWorker ∧
      ∀ a ∈ [Act.notifyReloading, Act.watchdogPoll, Act.watchdogPoll,
          Act.reap 5, Act.notifyReady], ∀ p sig, a ≠ Act.kill p sig :=
  failed_reload_leaves_worker
    (IterEnv.mk [] 5 [[], [(SIGCHLD, 5)]] none)
    (LoopSt.mk { initialGlobals with requestedReload := true } 7 false false)
    initialGlobals [Act.watchdogPoll, Act.watchdogPoll, Act.reap 5]
    [Act.notifyReloading, Act.watchdogPoll, Act.watchdogPoll,
      Act.reap 5, Act.notifyReady]
    (LoopSt.mk initialGlobals 7 false false)
    (by decide) (by decide)

/-- C1: in a successful reload, the action trace of the reload handling
is exactly: the reloading notification and the (signal-free) spawn
actions, then `kill(old, SIGTERM)`, the blocking reap of the old worker
(retried across `EINTR`), `kill(new, SIGUSR2)`, and the ready
notification — so the continue signal reaches the new worker only after
the old worker's death is confirmed, and nothing before that block kills
or reaps anything. -/
theorem reload_old_death_before_continue (env : IterEnv) (st : LoopSt)
    (nw : Int) (g2 : UmbrellaGlobals) (sacts : List Act) (acts : List Act)
    (st' : LoopSt)
    (hspawn : StartUnixWorker env.spawnSched env.spawnChildPid
      { st.g with requestedReload := false } = some (nw, g2, sacts))
    (hnw : nw ≠ -1) (hreq : st.g.requestedReload = true)
    (h : handleReload env st = some (acts, st')) :
    acts = (Act.notifyReloading :: sacts) ++
        [Act.kill st.currentWorker SIGTERM, Act.reap st.currentWorker,
          Act.kill nw SIGUSR2, Act.notifyReady] ∧
      st'.currentWorker = nw ∧
      ∀ a ∈ Act.notifyReloading :: sacts,
        (∀ p sig, a ≠ Act.kill p sig) ∧ (∀ p, a ≠ Act.reap p) := by
  unfold handleReload at h
  rw [if_pos hreq, hspawn] at h
  simp only at h
  rw [if_neg hnw] at h
  simp only [Option.some.injEq, Prod.mk.injEq] at h
  obtain ⟨ha, hst⟩ := h
  refine ⟨by rw [← ha], by rw [← hst], ?_⟩
  intro a hmem
  rcases List.mem_cons.mp hmem with hm | hm
  · subst hm
    exact ⟨fun p sig hc => Act.noConfusion hc, fun p hc => Act.noConfusion hc⟩
  · have hv := StartUnixWorker_acts_success env.spawnSched env.spawnChildPid
      { st.g with requestedReload := false } nw g2 sacts hspawn hnw a hm
    subst hv
    exact ⟨fun p sig hc => Act.noConfusion hc, fun p hc => Act.noConfusion hc⟩

/-- Witness for `reload_old_death_before_continue`: the new worker (pid 5)
loads its config, the old worker (pid 7) is SIGTERMed and reaped, and only
then does pid 5 get its continue SIGUSR2. -/
theorem reload_old_death_before_continue_witness :
    [Act.notifyReloading, Act.watchdogPoll, Act.kill 7 SIGTERM, Act.reap 7,
        Act.kill 5 SIGUSR2, Act.notifyReady] =
      (Act.notifyReloading :: [Act.watchdogPoll]) ++
        [Act.kill (LoopSt.mk { initialGlobals with requestedReload := true } 7 false false).currentWorker SIGTERM,
          Act.reap (LoopSt.mk { initialGlobals with requestedReload := true } 7 false false).currentWorker,
          Act.kill 5 SIGUSR2, Act.notifyReady] ∧
      (LoopSt.mk initialGlobals 5 false false).currentWorker = 5 ∧
      ∀ a ∈ Act.notifyReloading :: [Act.watchdogPoll],
        (∀ p sig, a ≠ Act.kill p sig) ∧ (∀ p, a ≠ Act.reap p) :=
  reload_old_death_before_continue
    (IterEnv.mk [] 5 [[(SIGUSR2, 5)]] none)
    (LoopSt.mk { initialGlobals with requestedReload := true } 7 false false)
    5 initialGlobals [Act.watchdogPoll]
    [Act.notifyReloading, Act.watchdogPoll, Act.kill 7 SIGTERM, Act.reap 7,
      Act.kill 5 SIGUSR2, Act.notifyReady]
    (LoopSt.mk initialGlobals 5 false false)
    (by decide) (by decide) (by decide) (by decide)

/-- C10: at initial startup, a failed first spawn makes the umbrella
return `EXIT_FAILURE` with no further action (it never enters the
supervision loop), while a successful first spawn is immediately followed
by the continue signal `kill(worker, SIGUSR2)`, then the `READY=1`
notification, then the supervision loop — and the spawn actions before the
continue signal are watchdog polls only, so the first worker never waits
on a predecessor. -/
theorem initial_startup (firstSched : List (List (Int × Int)))
    (firstChildPid : Int) (envs : List IterEnv) (w : Int)
    (g2 : UmbrellaGlobals) (sacts : List Act) :
    (StartUnixWorker firstSched firstChildPid initialGlobals =
        some (-1, g2, sacts) →
      daemonRun firstSched firstChildPid envs = some (sacts, some EXIT_FAILURE))
    ∧ (StartUnixWorker firstSched firstChildPid initialGlobals =
        some (w, g2, sacts) → w ≠ -1 →
      (∀ lacts r, runUmbrella envs (LoopSt.mk g2 w false false) = some (lacts, r) →
        daemonRun firstSched firstChildPid envs =
          some (sacts ++ Act.kill w SIGUSR2 :: Act.notifyReady :: lacts, r))
      ∧ ∀ a ∈ sacts, a = Act.watchdogPoll) := by
  constructor
  · intro hspawn
    unfold daemonRun
    rw [hspawn]
    simp
  · intro hspawn hw
    constructor
    · intro lacts r hrun
      unfold daemonRun
      rw [hspawn]
      simp only
      rw [if_neg hw, hrun]
    · exact StartUnixWorker_acts_success firstSched firstChildPid
        initialGlobals w g2 sacts hspawn hw

/-- Witness for `initial_startup`: a failing first spawn (the child, pid
5, dies) exits with `EXIT_FAILURE`; a succeeding one (pid 5 reports load
success) gets its SIGUSR2 before `READY=1` and before any loop action. -/
theorem initial_startup_witness :
    daemonRun [[], [(SIGCHLD, 5)]] 5 [] =
      some ([Act.watchdogPoll, Act.watchdogPoll, Act.reap 5], some EXIT_FAILURE) ∧
    daemonRun [[(SIGUSR2, 5)]] 5 [] =
      some ([Act.watchdogPoll] ++ Act.kill 5 SIGUSR2 :: Act.notifyReady :: [], none) :=
  ⟨(initial_startup [[], [(SIGCHLD, 5)]] 5 [] 0 initialGlobals
      [Act.watchdogPoll, Act.watchdogPoll, Act.reap 5]).1 (by decide),
    ((initial_startup [[(SIGUSR2, 5)]] 5 [] 5 initialGlobals
        [Act.watchdogPoll]).2 (by decide) (by decide)).1 [] none (by decide)⟩

lemma handler_reload_flag (num si_pid : Int) (g g' : UmbrellaGlobals)
    (hnum : num ≠ SIGHUP) (h : UmbrellaSignalHandler num si_pid g = some g') :
    g'.requestedReload = g.requestedReload := by
  unfold UmbrellaSignalHandler at h
  split_ifs at h with h1 h2 h3 h4 h5 h6 h7
  all_goals try (injection h with h; try subst h)
  all_goals rfl

lemma applySignals_reload_flag (ds : List (Int × Int)) :
    ∀ g g', (∀ d ∈ ds, d.1 ≠ SIGHUP) → applyUmbrellaSignals ds g = some g' →
      g'.requestedReload = g.requestedReload := by
  induction ds with
  | nil =>
    intro g g' _ h
    injection h with h
    subst h
    rfl
  | cons d ds ih =>
    intro g g' hall h
    rw [show applyUmbrellaSignals (d :: ds) g =
        (match UmbrellaSignalHandler d.1 d.2 g with
          | some g2 => applyUmbrellaSignals ds g2
          | none => none) from rfl] at h
    cases hh : UmbrellaSignalHandler d.1 d.2 g with
    | none => rw [hh] at h; cases h
    | some g2 =>
      rw [hh] at h
      rw [ih g2 g' (fun x hx => hall x (List.mem_cons_of_mem _ hx)) h]
      exact handler_reload_flag d.1 d.2 g g2 (hall d (List.mem_cons_self d ds)) hh

lemma awaitWorker_reload_flag (sched : List (List (Int × Int))) (cp : Int) :
    ∀ g r g' acts, (∀ ds ∈ sched, ∀ d ∈ ds, d.1 ≠ SIGHUP) →
      awaitWorker sched cp g = some (r, g', acts) →
      g'.requestedReload = g.requestedReload := by
  induction sched with
  | nil => intro g r g' acts _ h; cases h
  | cons ds rest ih =>
    intro g r g' acts hall h
    unfold awaitWorker at h
    cases h1 : applyUmbrellaSignals ds g with
    | none => rw [h1] at h; cases h
    | some g2 =>
      rw [h1] at h
      simp only at h
      have hg2 : g2.requestedReload = g.requestedReload :=
        applySignals_reload_flag ds g g2 (hall ds (List.mem_cons_self ds rest)) h1
      cases hs : g2.currentlyStartingUnixWorkerState with
      | LoadedConfig =>
        rw [hs] at h
        simp only [Option.some.injEq, Prod.mk.injEq] at h
        rw [← h.2.1, hg2]
      | Failed =>
        rw [hs] at h
        simp only [Option.some.injEq, Prod.mk.injEq] at h
        rw [← h.2.1, hg2]
      | Pending =>
        rw [hs] at h
        cases h2 : awaitWorker rest cp g2 with
        | none => rw [h2] at h; cases h
        | some x =>
          obtain ⟨r2, g3, acts2⟩ := x
          rw [h2] at h
          simp only [Option.some.injEq, Prod.mk.injEq] at h
          rw [← h.2.1]
          rw [ih g2 r2 g3 acts2 (fun x hx => hall x (List.mem_cons_of_mem _ hx)) h2]
          exact hg2

lemma StartUnixWorker_reload_flag (sched : List (List (Int × Int))) (cp : Int)
    (g : UmbrellaGlobals) (r : Int) (g' : UmbrellaGlobals) (acts : List Act)
    (hall : ∀ ds ∈ sched, ∀ d ∈ ds, d.1 ≠ SIGHUP)
    (h : StartUnixWorker sched cp g = some (r, g', acts)) :
    g'.requestedReload = g.requestedReload := by
  obtain ⟨g2, hw, hg⟩ := StartUnixWorker_inv sched cp g r g' acts h
  have := awaitWorker_reload_flag sched cp _ r g2 acts hall hw
  rw [hg]
  exact this

/-- C7: the edge-triggered request flags are read-and-clear exactly once
per drain: a SIGHUP (resp. SIGUSR1) delivery sets `l_RequestedReload`
(resp. `l_RequestedReopenLogs`); a drain that observes the flag set acts
on it (forwarding SIGUSR1, resp. entering the reload path) and resets it
to false; a drain that observes it clear does nothing — so a pending
request is acted on exactly once, never lost and never double-processed. -/
theorem edge_triggered_flags :
    (∀ g si_pid, UmbrellaSignalHandler SIGHUP si_pid g =
      some { g with requestedReload := true })
    ∧ (∀ g si_pid, UmbrellaSignalHandler SIGUSR1 si_pid g =
      some { g with requestedReopenLogs := true })
    ∧ (∀ st, st.g.requestedReopenLogs = true →
        handleReopenLogs st = ([Act.kill st.currentWorker SIGUSR1],
          { st with g := { st.g with requestedReopenLogs := false } }))
    ∧ (∀ st, st.g.requestedReopenLogs = false → handleReopenLogs st = ([], st))
    ∧ (∀ env st, st.g.requestedReload = false → handleReload env st = some ([], st))
    ∧ (∀ env st acts st', st.g.requestedReload = true →
        (∀ ds ∈ env.spawnSched, ∀ d ∈ ds, d.1 ≠ SIGHUP) →
        handleReload env st = some (acts, st') →
        Act.notifyReloading ∈ acts ∧ st'.g.requestedReload = false) := by
  refine ⟨?_, ?_, ?_, ?_, ?_, ?_⟩
  · intro g si_pid
    simp [UmbrellaSignalHandler, SIGHUP, SIGUSR1, SIGUSR2, SIGCHLD, SIGINT, SIGTERM]
  · intro g si_pid
    simp [UmbrellaSignalHandler, SIGUSR1]
  · intro st hflag
    unfold handleReopenLogs
    rw [if_pos hflag]
  · intro st hflag
    unfold handleReopenLogs
    rw [if_neg (by rw [hflag]; exact Bool.false_ne_true)]
  · intro env st hflag
    unfold handleReload
    rw [if_neg (by rw [hflag]; exact Bool.false_ne_true)]
  · intro env st acts st' hflag hall h
    unfold handleReload at h
    rw [if_pos hflag] at h
    cases hs : StartUnixWorker env.spawnSched env.spawnChildPid
        { st.g with requestedReload := false } with
    | none => rw [hs] at h; cases h
    | some x =>
      obtain ⟨nw, g2, sacts⟩ := x
      rw [hs] at h
      have hflag2 : g2.requestedReload = false :=
        StartUnixWorker_reload_flag env.spawnSched env.spawnChildPid
          { st.g with requestedReload := false } nw g2 sacts hall hs
      simp only at h
      by_cases hnw : nw = -1
      · rw [if_pos hnw] at h
        simp only [Option.some.injEq, Prod.mk.injEq] at h
        constructor
        · rw [← h.1]; exact List.mem_cons_self _ _
        · rw [← h.2]; exact hflag2
      · rw [if_neg hnw] at h
        simp only [Option.some.injEq, Prod.mk.injEq] at h
        constructor
        · rw [← h.1]; exact List.mem_cons_self _ _
        · rw [← h.2]; exact hflag2

/-- Witness for `edge_triggered_flags`: a pending log-reopen request is
forwarded to the active worker (pid 7) and the flag is cleared. -/
theorem edge_triggered_flags_witness :
    handleReopenLogs
        (LoopSt.mk { initialGlobals with requestedReopenLogs := true } 7 false false) =
      ([Act.kill 7 SIGUSR1], LoopSt.mk initialGlobals 7 false false) :=
  edge_triggered_flags.2.2.1
    (LoopSt.mk { initialGlobals with requestedReopenLogs := true } 7 false false)
    (by decide)

/-- Number of `STOPPING=1` notifications in an action trace. -/
def countStopping : List Act → Nat
  | [] => 0
  | Act.notifyStopping :: rest => countStopping rest + 1
  | _ :: rest => countStopping rest

lemma countStopping_append (l1 l2 : List Act) :
    countStopping (l1 ++ l2) = countStopping l1 + countStopping l2 := by
  induction l1 with
  | nil => simp [countStopping]
  | cons a l ih =>
    cases a <;> (simp [countStopping, ih]; try omega)

lemma countStopping_eq_zero (l : List Act) (h : ∀ a ∈ l, a ≠ Act.notifyStopping) :
    countStopping l = 0 := by
  induction l with
  | nil => rfl
  | cons a l ih =>
    have ha := h a (List.mem_cons_self a l)
    have hl := ih fun x hx => h x (List.mem_cons_of_mem _ hx)
    cases a <;> simp [countStopping, hl]
    exact absurd rfl ha

lemma notifyStopping_mem_of_countStopping (l : List Act)
    (h : countStopping l = 0) : Act.notifyStopping ∉ l := by
  induction l with
  | nil => exact List.not_mem_nil _
  | cons a l ih =>
    intro hmem
    rcases List.mem_cons.mp hmem with hm | hm
    · subst hm; simp [countStopping] at h
    · cases a <;> simp [countStopping] at h <;> exact ih h hm

lemma forwardTermination_stopping (st : LoopSt) :
    countStopping (forwardTermination st).1 +
        (if st.notifiedTermination then 1 else 0) =
      (if (forwardTermination st).2.notifiedTermination then 1 else 0) := by
  by_cases h1 : st.requestedTermination
  · simp [forwardTermination, h1, countStopping]
  · by_cases h2 : st.g.termSignal = -1
    · simp [forwardTermination, h1, h2, countStopping]
    · by_cases h3 : st.notifiedTermination
      · simp [forwardTermination, h1, h2, h3, countStopping]
      · simp [forwardTermination, h1, h2, h3, countStopping]

lemma forwardTermination_flags (st : LoopSt) :
    (forwardTermination st).2.g = st.g ∧
      (forwardTermination st).2.currentWorker = st.currentWorker := by
  unfold forwardTermination
  split_ifs <;> exact ⟨rfl, rfl⟩

lemma handleReload_stopping (env : IterEnv) (st : LoopSt)
    (acts : List Act) (st' : LoopSt)
    (h : handleReload env st = some (acts, st')) :
    countStopping acts = 0 ∧
      st'.requestedTermination = st.requestedTermination ∧
      st'.notifiedTermination = st.notifiedTermination := by
  unfold handleReload at h
  by_cases hreq : st.g.requestedReload
  · rw [if_pos hreq] at h
    cases hs : StartUnixWorker env.spawnSched env.spawnChildPid
        { st.g with requestedReload := false } with
    | none => rw [hs] at h; cases h
    | some x =>
      obtain ⟨nw, g2, sacts⟩ := x
      rw [hs] at h
      simp only at h
      have hsacts : countStopping sacts = 0 := by
        refine countStopping_eq_zero sacts fun a ha => ?_
        rcases StartUnixWorker_acts_mem env.spawnSched env.spawnChildPid
            { st.g with requestedReload := false } nw g2 sacts hs a ha with hv | hv <;>
          (subst hv; exact fun hc => Act.noConfusion hc)
      by_cases hnw : nw = -1
      · rw [if_pos hnw] at h
        simp only [Option.some.injEq, Prod.mk.injEq] at h
        obtain ⟨ha, hst⟩ := h
        refine ⟨?_, by rw [← hst], by rw [← hst]⟩
        rw [← ha]
        simp [countStopping, countStopping_append, hsacts]
      · rw [if_neg hnw] at h
        simp only [Option.some.injEq, Prod.mk.injEq] at h
        obtain ⟨ha, hst⟩ := h
        refine ⟨?_, by rw [← hst], by rw [← hst]⟩
        rw [← ha]
        simp [countStopping, countStopping_append, hsacts]
  · rw [if_neg hreq] at h
    simp only [Option.some.injEq, Prod.mk.injEq] at h
    obtain ⟨ha, hst⟩ := h
    exact ⟨by rw [← ha]; rfl, by rw [← hst], by rw [← hst]⟩

lemma handleReopenLogs_stopping (st : LoopSt) :
    countStopping (handleReopenLogs st).1 = 0 ∧
      (handleReopenLogs st).2.requestedTermination = st.requestedTermination ∧
      (handleReopenLogs st).2.notifiedTermination = st.notifiedTermination := by
  unfold handleReopenLogs
  split_ifs <;> exact ⟨rfl, rfl, rfl⟩

lemma checkWorkerExit_stopping (env : IterEnv) (st : LoopSt) :
    countStopping (checkWorkerExit env st).1 +
        (if st.notifiedTermination then 1 else 0) =
      (if (checkWorkerExit env st).2.2.notifiedTermination then 1 else 0) := by
  unfold checkWorkerExit
  cases he : env.exitStatus with
  | none => simp [countStopping]
  | some ws =>
    by_cases h : st.notifiedTermination
    · simp [h, countStopping]
    · simp [h, countStopping]

lemma iterStep_stopping (env : IterEnv) (st : LoopSt)
    (acts : List Act) (out : LoopSt ⊕ Int)
    (h : iterStep env st = some (acts, out)) :
    countStopping acts + (if st.notifiedTermination then 1 else 0) ≤ 1 ∧
      ∀ st', out = Sum.inl st' →
        countStopping acts + (if st.notifiedTermination then 1 else 0) =
          if st'.notifiedTermination then 1 else 0 := by
  unfold iterStep at h
  cases h1 : applyUmbrellaSignals env.preSignals st.g with
  | none => rw [h1] at h; cases h
  | some g1 =>
    rw [h1] at h
    simp only at h
    rcases hft : forwardTermination { st with g := g1 } with ⟨a1, st2⟩
    rw [hft] at h
    simp only at h
    have e1 := forwardTermination_stopping { st with g := g1 }
    rw [hft] at e1
    simp only at e1
    have hn1 : ({ st with g := g1 } : LoopSt).notifiedTermination =
        st.notifiedTermination := rfl
    rw [hn1] at e1
    cases h2 : handleReload env st2 with
    | none => rw [h2] at h; cases h
    | some x =>
      obtain ⟨a2, st3⟩ := x
      rw [h2] at h
      simp only at h
      have e2 := handleReload_stopping env st2 a2 st3 h2
      rcases hrl : handleReopenLogs st3 with ⟨a3, st4⟩
      rw [hrl] at h
      simp only at h
      have e3 := handleReopenLogs_stopping st3
      rw [hrl] at e3
      simp only at e3
      have e4 := checkWorkerExit_stopping env st4
      rcases h4 : checkWorkerExit env st4 with ⟨a4, oc, st5⟩
      rw [h4] at h e4
      simp only at e4
      have hb4 : st4.notifiedTermination = st2.notifiedTermination := by
        rw [e3.2.2, e2.2.2]
      rw [hb4] at e4
      have hacts : ∀ res : LoopSt ⊕ Int,
          some (Act.watchdogPoll :: (a1 ++ a2 ++ a3 ++ a4), res) =
            some (acts, out) →
          countStopping acts =
            countStopping a1 + countStopping a4 := by
        intro res hres
        simp only [Option.some.injEq, Prod.mk.injEq] at hres
        rw [← hres.1]
        rw [show countStopping (Act.watchdogPoll :: (a1 ++ a2 ++ a3 ++ a4)) =
            countStopping (a1 ++ a2 ++ a3 ++ a4) from rfl]
        rw [countStopping_append, countStopping_append, countStopping_append]
        rw [e2.1, e3.1]
        omega
      cases oc with
      | none =>
        have hc := hacts (Sum.inl st5) h
        simp only [Option.some.injEq, Prod.mk.injEq] at h
        obtain ⟨-, hout⟩ := h
        have hkey : countStopping acts + (if st.notifiedTermination then 1 else 0) =
            if st5.notifiedTermination then 1 else 0 := by
          rw [hc]
          omega
        constructor
        · rw [hkey]
          split_ifs <;> omega
        · intro st' hst'
          rw [← hout] at hst'
          injection hst' with hst'
          rw [hkey, hst']
      | some c =>
        have hc := hacts (Sum.inr c) h
        simp only [Option.some.injEq, Prod.mk.injEq] at h
        obtain ⟨-, hout⟩ := h
        constructor
        · have hkey : countStopping acts + (if st.notifiedTermination then 1 else 0) =
              if st5.notifiedTermination then 1 else 0 := by
            rw [hc]
            omega
          rw [hkey]
          split_ifs <;> omega
        · intro st' hst'
          rw [← hout] at hst'
          cases hst'

lemma runUmbrella_stopping (envs : List IterEnv) :
    ∀ st acts r, runUmbrella envs st = some (acts, r) →
      countStopping acts + (if st.notifiedTermination then 1 else 0) ≤ 1 := by
  induction envs with
  | nil =>
    intro st acts r h
    injection h with h
    simp only [Prod.mk.injEq] at h
    rw [← h.1]
    split_ifs <;> simp [countStopping]
  | cons env envs ih =>
    intro st acts r h
    unfold runUmbrella at h
    cases hi : iterStep env st with
    | none => rw [hi] at h; cases h
    | some x =>
      obtain ⟨a, out⟩ := x
      rw [hi] at h
      cases out with
      | inr code =>
        simp only [Option.some.injEq, Prod.mk.injEq] at h
        rw [← h.1]
        exact (iterStep_stopping env st a (Sum.inr code) hi).1
      | inl st2 =>
        simp only at h
        cases hr : runUmbrella envs st2 with
        | none => rw [hr] at h; cases h
        | some y =>
          obtain ⟨acts2, r2⟩ := y
          rw [hr] at h
          simp only [Option.some.injEq, Prod.mk.injEq] at h
          rw [← h.1]
          rw [countStopping_append]
          have h1 := (iterStep_stopping env st a (Sum.inl st2) hi).2 st2 rfl
          have h2 := ih st2 acts2 r2 hr
          omega

/-- C6 (amended): the umbrella's main loop reads `l_TermSignal` with a
plain load and never clears it (the flag is not exchanged with its
not-set value `-1`); instead the local `requestedTermination` latch makes
the loop forward the pending signal to the active worker at most once
across all iterations (on the first drain that observes it), and the
`STOPPING=1` supervisor notification is emitted at most once in the whole
run, shared between the termination-forward path and the worker-exit
path. -/
theorem termSignal_latch :
    (∀ st, st.requestedTermination = true → forwardTermination st = ([], st))
    ∧ (∀ st, (forwardTermination st).2.g.termSignal = st.g.termSignal)
    ∧ (∀ st, st.requestedTermination = false → st.g.termSignal ≠ -1 →
        (forwardTermination st).1.head? =
          some (Act.kill st.currentWorker st.g.termSignal) ∧
        (forwardTermination st).2.requestedTermination = true)
    ∧ (∀ envs st acts r, runUmbrella envs st = some (acts, r) →
        countStopping acts + (if st.notifiedTermination then 1 else 0) ≤ 1)
    ∧ (∀ envs st acts r, st.notifiedTermination = true →
        runUmbrella envs st = some (acts, r) → Act.notifyStopping ∉ acts) := by
  refine ⟨?_, ?_, ?_, ?_, ?_⟩
  · intro st hreq
    unfold forwardTermination
    rw [if_pos hreq]
  · intro st
    exact congrArg UmbrellaGlobals.termSignal (forwardTermination_flags st).1
  · intro st hreq hterm
    unfold forwardTermination
    rw [if_neg (by rw [hreq]; exact Bool.false_ne_true), if_neg hterm]
    by_cases hn : st.notifiedTermination
    · rw [if_pos hn]
      exact ⟨rfl, rfl⟩
    · rw [if_neg hn]
      exact ⟨rfl, rfl⟩
  · intro envs st acts r h
    exact runUmbrella_stopping envs st acts r h
  · intro envs st acts r hn h
    have hc := runUmbrella_stopping envs st acts r h
    rw [hn] at hc
    simp only [if_pos] at hc
    exact notifyStopping_mem_of_countStopping acts (by omega)

/-- Witness for `termSignal_latch`: once `requestedTermination` is
latched, a later iteration's drain block does nothing at all. -/
theorem termSignal_latch_witness :
    forwardTermination
        (LoopSt.mk { initialGlobals with termSignal := SIGTERM, sigtermDefaulted := true } 7 true true) =
      ([], LoopSt.mk { initialGlobals with termSignal := SIGTERM, sigtermDefaulted := true } 7 true true) :=
  termSignal_latch.1
    (LoopSt.mk { initialGlobals with termSignal := SIGTERM, sigtermDefaulted := true } 7 true true)
    rfl

/-- C6 counterexample: after an iteration in which the loop observed the
pending SIGTERM in `l_TermSignal`, forwarded it to the worker (pid 7) and
notified `STOPPING=1`, the flag still holds SIGTERM — it was *not*
atomically exchanged with its not-set value `-1` as the claim states; the
source merely `load()`s it and relies on the local `requestedTermination`
latch. -/
theorem termSignal_not_exchanged :
    iterStep (IterEnv.mk [] 0 [] none)
        (LoopSt.mk
          { initialGlobals with termSignal := SIGTERM, sigtermDefaulted := true }
          7 false false) =
      some ([Act.watchdogPoll, Act.kill 7 SIGTERM, Act.notifyStopping],
        Sum.inl (LoopSt.mk
          { initialGlobals with termSignal := SIGTERM, sigtermDefaulted := true }
          7 true true)) ∧
    ({ initialGlobals with termSignal := SIGTERM, sigtermDefaulted := true } :
        UmbrellaGlobals).termSignal ≠ -1 :=
  ⟨by decide, by decide⟩

end Icinga
